import Mathlib

/-!
Verification of the VideoEmbeddingExtractor pipeline (src/config.py,
src/main.py, src/utils.py) against its natural-language specification.

Python strings are modelled as `List Char`; the OCR engine, the
filesystem and the video decoder are modelled as explicit environment
parameters (functions supplied to the embedded code), since the Python
code only observes them through their return values and exceptions.
-/

namespace VEE

/-- A character counts as whitespace for Python's `str.split()` /
`str.strip()` (modelled by the ASCII whitespace recognised by
`Char.isWhitespace`). -/
def isWs (c : Char) : Bool := c.isWhitespace

/-- Truthiness of Python `text.strip()`: the stripped string is non-empty
iff some character of `text` is not whitespace. -/
def hasNonWs (text : List Char) : Bool := text.any (fun c => !isWs c)

/-- Helper for `pySplit`: walks the string keeping the (reversed) current
token in `acc`; a whitespace character ends the current token, and tokens
are emitted only when non-empty. -/
def pySplitAux : List Char → List Char → List (List Char)
  | [], acc => if acc = [] then [] else [acc.reverse]
  | c :: cs, acc =>
    if isWs c then
      if acc = [] then pySplitAux cs [] else acc.reverse :: pySplitAux cs []
    else pySplitAux cs (c :: acc)

/-- Python `text.split()` with no separator argument: split on every
maximal run of whitespace and discard empty tokens. -/
def pySplit (text : List Char) : List (List Char) := pySplitAux text []

/-- The accumulation loop of `dedup_words` (src/main.py lines 64-68):
`wordSet.update(text.split())` for every `text` whose `text.strip()` is
truthy. The Python `set` is modelled by the list of inserted tokens;
its set of members is the set of elements of this list. -/
def wordList (texts : List (List Char)) : List (List Char) :=
  texts.foldl
    (fun ws text => if hasNonWs text then ws ++ pySplit text else ws) []

/-- `dedup_words` (src/main.py lines 54-69): collect the words of all
texts into a set, then return `sorted(list(wordSet))` — the distinct
members of the accumulated collection in ascending lexical order. -/
def dedup_words (texts : List (List Char)) : List (List Char) :=
  ((wordList texts).dedup).insertionSort (· ≤ ·)

/-- `num_digits = len(str(num_frames))` (src/utils.py line 40): the number
of decimal digits of a natural number, where `str(0) = "0"` has length 1. -/
def num_digits (num_frames : Nat) : Nat :=
  if num_frames = 0 then 1 else (Nat.digits 10 num_frames).length

/-- `frame.endswith('.jpg')` (src/utils.py line 90). -/
def endsWithJpg (name : List Char) : Bool :=
  ".jpg".toList.isSuffixOf name

/-- `os.path.join(folder, name)` for a relative `name` (src/utils.py
line 88): the folder, a path separator, then the name. -/
def path_join (folder name : List Char) : List Char :=
  folder ++ '/' :: name

/-- The tail of `get_frames` (src/utils.py lines 87-93): after the decoder
has produced the frame files, list the frames folder, keep the entries
ending in `.jpg`, and join each onto the folder path — in the order the
directory listing returns them (`os.listdir` performs no sorting). -/
def get_frames (frames_folder : List Char) (listing : List (List Char)) :
    List (List Char) :=
  (listing.filter endsWithJpg).map (path_join frames_folder)

/-- The external collaborators and filesystem as the Python code observes
them: `os.path.exists`, success of `cv2.imread` inside `preprocess_image`,
`pytesseract.image_to_string` per (frame, language) — `none` models a
raised exception and `some t` a returned text — and the frames-folder
directory listing produced by the decoder run. -/
structure Env where
  fileExists : List Char → Bool
  imreadOk : List Char → Bool
  ocr : List Char → List Char → Option (List Char)
  listing : List (List Char)

/-- The per-language loop of `extract_text` (src/utils.py lines 128-141):
for each language in order, call the OCR engine; an exception is logged
and skipped, and a returned text is appended only when `lang_text.strip()`
is truthy (the raw, untrimmed text is appended). -/
def frame_text_list (env : Env) (frame : List Char) :
    List (List Char) → List (List Char)
  | [] => []
  | lang :: rest =>
    match env.ocr frame lang with
    | none => frame_text_list env frame rest
    | some lang_text =>
      if hasNonWs lang_text then lang_text :: frame_text_list env frame rest
      else frame_text_list env frame rest

/-- `'\n'.join(...)` (src/utils.py line 145): concatenate with a single
newline between consecutive pieces. -/
def joinNl (pieces : List (List Char)) : List Char :=
  List.intercalate ['\n'] pieces

/-- `extract_text` (src/utils.py lines 100-163): per frame, a missing file
raises `FileNotFoundError` and an unreadable image raises `ValueError`,
both caught by the per-frame handler which logs and continues with the
next frame; otherwise the per-language results are combined with a
newline and appended when at least one language produced text. -/
def extract_text (env : Env) (langs : List (List Char)) :
    List (List Char) → List (List Char)
  | [] => []
  | frame :: rest =>
    if env.fileExists frame = false then extract_text env langs rest
    else if env.imreadOk frame = false then extract_text env langs rest
    else
      let ft := frame_text_list env frame langs
      if ft = [] then extract_text env langs rest
      else joinNl ft :: extract_text env langs rest

/-- `os.path.basename` for POSIX paths (src/main.py line 103): the part of
the path after the last separator. -/
def basename (p : List Char) : List Char :=
  (p.reverse.takeWhile (fun c => c ≠ '/')).reverse

/-- `os.path.splitext(name)[0]` for a separator-free `name` (src/main.py
line 103): cut at the last dot, unless every character before that dot is
itself a dot (then the name has no extension). -/
def splitextRoot (name : List Char) : List Char :=
  let rev := name.reverse
  let extRev := rev.takeWhile (fun c => c ≠ '.')
  if extRev.length = rev.length then name
  else
    let stem := (rev.drop (extRev.length + 1)).reverse
    if stem.any (fun c => c ≠ '.') then stem else name

/-- `os.path.splitext(os.path.basename(video_path))[0]` (src/main.py
line 103). -/
def video_base_name (video_path : List Char) : List Char :=
  splitextRoot (basename video_path)

/-- The output path of `save_results` (src/utils.py line 179):
`f'{video_name}_words.txt'` in the current directory. -/
def save_results_path (video_name : List Char) : List Char :=
  video_name ++ "_words.txt".toList

/-- The bytes `save_results` writes (src/utils.py line 181):
`'\n'.join(results)`. -/
def save_results_content (results : List (List Char)) : List Char :=
  joinNl results

/-- The observable outcome of `process_video` (src/main.py lines 71-110):
an exception propagated to the caller, an early return after a logged
warning (no text / no words), or a written output file. -/
inductive VideoOutcome where
  | raised (msg : List Char)
  | warnedNoText
  | warnedNoWords
  | saved (path : List Char) (content : List Char)
deriving DecidableEq

/-- Default `Config.frames_folder` (src/config.py line 24). -/
def frames_folder : List Char := "frames".toList

/-- `process_video` (src/main.py lines 71-110): get the frames, raise if
there are none, return early with a warning when no text or no words
remain, otherwise save the deduplicated word list for the video. -/
def process_video (env : Env) (langs : List (List Char))
    (video_path : List Char) : VideoOutcome :=
  let frames := get_frames frames_folder env.listing
  if frames = [] then
    VideoOutcome.raised "No frames were extracted from the video".toList
  else
    let text := extract_text env langs frames
    if text = [] then VideoOutcome.warnedNoText
    else
      let words := dedup_words text
      if words = [] then VideoOutcome.warnedNoWords
      else
        VideoOutcome.saved (save_results_path (video_base_name video_path))
          (save_results_content words)

/-- `video_path.lower().endswith(('.mp4', '.avi', '.mov', '.mkv'))`
(src/main.py line 176). -/
def hasVideoExt (p : List Char) : Bool :=
  let lp := p.map Char.toLower
  ".mp4".toList.isSuffixOf lp || ".avi".toList.isSuffixOf lp ||
    ".mov".toList.isSuffixOf lp || ".mkv".toList.isSuffixOf lp

/-- The exit status of `main` after configuration and logging succeed
(src/main.py lines 172-194): a missing or wrongly named video file exits
with status 1, an exception from `process_video` is caught and exits with
status 1, and otherwise the process ends with status 0. -/
def main_exit_code (env : Env) (langs : List (List Char))
    (video_path : List Char) : Nat :=
  if env.fileExists video_path = false then 1
  else if hasVideoExt video_path = false then 1
  else
    match process_video env langs video_path with
    | VideoOutcome.raised _ => 1
    | _ => 0

/-- The directory-creating side effects performed so far: `os.makedirs`
calls in order (`exist_ok=True`, so a call is recorded even when the
directory exists). -/
structure FsState where
  dirs : List (List Char)
deriving DecidableEq

/-- `os.makedirs(folder, exist_ok=True)` (src/config.py line 30). -/
def makedirs (st : FsState) (folder : List Char) : FsState :=
  ⟨st.dirs ++ [folder]⟩

/-- `lang.split('+')` (src/config.py line 49). -/
def splitPlus (lang : List Char) : List (List Char) :=
  lang.splitOn '+'

/-- `Config._validate_languages` (src/config.py lines 39-57): for each
configured language, split the combined code on `+` and fail when a part
is not among the installed languages; the inner `ValueError` is rewrapped
by the catch-all handler. Returns `none` on success and `some msg` for
the raised error. -/
def validate_languages (installed : List (List Char)) :
    List (List Char) → Option (List Char)
  | [] => none
  | lang :: rest =>
    let missing := (splitPlus lang).filter (fun part => !installed.contains part)
    if missing = [] then validate_languages installed rest
    else some "Error validating languages: Missing language data files".toList

/-- `Config.__post_init__` (src/config.py lines 27-37): create the frames
and text folders, create the debug folder when debug mode is on, and only
then validate the languages. Returns the filesystem state alongside the
configuration error, if any. -/
def config_post_init (installed : List (List Char))
    (languages : List (List Char)) (debug : Bool)
    (framesFolder textFolder debugFolder : List Char) (st : FsState) :
    FsState × Option (List Char) :=
  let st1 := makedirs (makedirs st framesFolder) textFolder
  let st2 := if debug then makedirs st1 debugFolder else st1
  (st2, validate_languages installed languages)

example : pySplit "  cat  dog ".toList = ["cat".toList, "dog".toList] := by decide
example : dedup_words ["cat dog".toList, "dog bird".toList, "".toList] =
    ["bird".toList, "cat".toList, "dog".toList] := by decide
example : get_frames "frames".toList ["1.jpg".toList, "0.jpg".toList, "x.txt".toList]
    = ["frames/1.jpg".toList, "frames/0.jpg".toList] := by decide
example : ¬ (get_frames "frames".toList
    ["1.jpg".toList, "0.jpg".toList]).Sorted (· ≤ ·) := by decide

/-! ### Digit width (claim C3) -/

theorem num_digits_eq_log (n : Nat) : num_digits n = Nat.log 10 n + 1 := by
  unfold num_digits
  rcases eq_or_ne n 0 with h | h
  · simp [h]
  · rw [if_neg h, Nat.digits_len 10 n (by norm_num) h]

theorem max_one_clog_eq_log (n : Nat) :
    max 1 (Nat.clog 10 (n + 1)) = Nat.log 10 n + 1 := by
  rcases eq_or_ne n 0 with h | h
  · simp [h, Nat.clog_one_right]
  · have h2 : 2 ≤ n + 1 := by omega
    have hpos : 0 < Nat.clog 10 (n + 1) := Nat.clog_pos (by norm_num) h2
    rw [max_eq_right hpos]
    refine le_antisymm ?hle ?hge
    case hle =>
      refine (Nat.le_pow_iff_clog_le (by norm_num)).1 ?_
      exact Nat.lt_pow_succ_log_self (by norm_num) n
    case hge =>
      have hx : n < 10 ^ Nat.clog 10 (n + 1) :=
        Nat.lt_of_succ_le (Nat.le_pow_clog (by norm_num) (n + 1))
      exact Nat.succ_le_of_lt (Nat.log_lt_of_lt_pow h hx)

/-- C3: for every non-negative frame count, the digit width used for the
frame filenames equals `max(1, ceil(log10(frame_count+1)))`, which is the
number of decimal digits of the frame count; it is at least 1 even for a
frame count of 0, and the example values 0, 9, 10, 999 map to widths
1, 1, 2, 3. -/
theorem C3_digit_width :
    (∀ n : Nat, num_digits n = max 1 (Nat.clog 10 (n + 1)) ∧
      num_digits n = Nat.log 10 n + 1 ∧ 1 ≤ num_digits n) ∧
    num_digits 0 = 1 ∧ num_digits 9 = 1 ∧ num_digits 10 = 2 ∧
    num_digits 999 = 3 := by
  have key : ∀ n : Nat, num_digits n = max 1 (Nat.clog 10 (n + 1)) ∧
      num_digits n = Nat.log 10 n + 1 ∧ 1 ≤ num_digits n := by
    intro n
    refine ⟨?_, num_digits_eq_log n, ?_⟩
    · rw [num_digits_eq_log n, max_one_clog_eq_log n]
    · rw [num_digits_eq_log n]; omega
  have h9 : Nat.log 10 9 = 0 := Nat.log_eq_of_pow_le_of_lt_pow (by norm_num) (by norm_num)
  have h10 : Nat.log 10 10 = 1 := Nat.log_eq_of_pow_le_of_lt_pow (by norm_num) (by norm_num)
  have h999 : Nat.log 10 999 = 2 := Nat.log_eq_of_pow_le_of_lt_pow (by norm_num) (by norm_num)
  refine ⟨key, ?_, ?_, ?_, ?_⟩
  · rw [num_digits_eq_log, Nat.log_zero_right]
  · rw [num_digits_eq_log, h9]
  · rw [num_digits_eq_log, h10]
  · rw [num_digits_eq_log, h999]

/-! ### Word splitting and deduplication (claims C4, C5) -/

theorem pySplitAux_token_shape (s : List Char) :
    ∀ acc : List Char, (∀ c ∈ acc, isWs c = false) →
      ∀ w ∈ pySplitAux s acc, w ≠ [] ∧ ∀ c ∈ w, isWs c = false := by
  induction s with
  | nil =>
    intro acc hacc w hw
    by_cases h : acc = []
    · simp [pySplitAux, h] at hw
    · rw [pySplitAux, if_neg h] at hw
      have hww : w = acc.reverse := by simpa using hw
      subst hww
      refine ⟨by simpa using h, ?_⟩
      intro c hc
      exact hacc c (by simpa using hc)
  | cons c cs ih =>
    intro acc hacc w hw
    rw [pySplitAux] at hw
    by_cases hws : isWs c = true
    · rw [if_pos hws] at hw
      by_cases h : acc = []
      · rw [if_pos h] at hw
        exact ih [] (by simp) w hw
      · rw [if_neg h] at hw
        rcases List.mem_cons.mp hw with hww | hw2
        · subst hww
          refine ⟨by simpa using h, ?_⟩
          intro a ha
          exact hacc a (by simpa using ha)
        · exact ih [] (by simp) w hw2
    · rw [if_neg hws] at hw
      refine ih (c :: acc) ?_ w hw
      intro a ha
      rcases List.mem_cons.mp ha with haa | ha2
      · subst haa
        simpa using hws
      · exact hacc a ha2

theorem pySplitAux_nil_of_ws (s : List Char) (h : ∀ c ∈ s, isWs c = true) :
    pySplitAux s [] = [] := by
  induction s with
  | nil => rfl
  | cons c cs ih =>
    rw [pySplitAux, if_pos (h c (List.mem_cons_self c cs)), if_pos rfl]
    exact ih fun a ha => h a (List.mem_cons_of_mem c ha)

theorem pySplit_eq_nil_of_not_hasNonWs (text : List Char)
    (h : hasNonWs text = false) : pySplit text = [] := by
  apply pySplitAux_nil_of_ws
  intro c hc
  simp only [hasNonWs, List.any_eq_false, Bool.not_eq_true'] at h
  simpa using h c hc

theorem mem_wordList_foldl (texts : List (List Char)) :
    ∀ (init : List (List Char)) (w : List Char),
      w ∈ texts.foldl
          (fun ws text => if hasNonWs text then ws ++ pySplit text else ws)
          init
        ↔ w ∈ init ∨ ∃ t ∈ texts, w ∈ pySplit t := by
  induction texts with
  | nil => intro init w; simp
  | cons t ts ih =>
    intro init w
    rw [List.foldl_cons, ih]
    by_cases h : hasNonWs t = true
    · rw [if_pos h]
      simp only [List.mem_append, List.mem_cons]
      constructor
      · rintro (⟨hi | hp⟩ | ⟨u, hu, hwp⟩)
        · exact Or.inl hi
        · exact Or.inr ⟨t, Or.inl rfl, hp⟩
        · exact Or.inr ⟨u, Or.inr hu, hwp⟩
      · rintro (hi | ⟨u, hu | hu, hwp⟩)
        · exact Or.inl (Or.inl hi)
        · subst hu; exact Or.inl (Or.inr hwp)
        · exact Or.inr ⟨u, hu, hwp⟩
    · rw [if_neg h]
      have hnil := pySplit_eq_nil_of_not_hasNonWs t (by simpa using h)
      simp [hnil]

theorem mem_wordList (texts : List (List Char)) (w : List Char) :
    w ∈ wordList texts ↔ ∃ t ∈ texts, w ∈ pySplit t := by
  rw [wordList, mem_wordList_foldl]
  simp

theorem mem_dedup_words (texts : List (List Char)) (w : List Char) :
    w ∈ dedup_words texts ↔ ∃ t ∈ texts, w ∈ pySplit t := by
  rw [dedup_words, (List.perm_insertionSort _ _).mem_iff, List.mem_dedup,
    mem_wordList]

theorem dedup_words_nodup (texts : List (List Char)) :
    (dedup_words texts).Nodup :=
  ((List.perm_insertionSort _ _).nodup_iff).2 (List.nodup_dedup _)

theorem dedup_words_sorted (texts : List (List Char)) :
    (dedup_words texts).Sorted (· ≤ ·) :=
  List.sorted_insertionSort _ _

/-- C4: `dedup_words` splits each input text on runs of whitespace with
empty tokens discarded (a returned word is exactly a `pySplit` token of
some input text, and every word is non-empty and whitespace-free), and
returns the distinct tokens as a strictly sorted (hence duplicate-free)
sequence; the empty input yields the empty output. -/
theorem C4_dedup_words_correct :
    dedup_words [] = [] ∧
    ∀ texts : List (List Char),
      (dedup_words texts).Sorted (· < ·) ∧
      (dedup_words texts).Nodup ∧
      (∀ w, w ∈ dedup_words texts ↔ ∃ t ∈ texts, w ∈ pySplit t) ∧
      (∀ w ∈ dedup_words texts, w ≠ [] ∧ ∀ c ∈ w, isWs c = false) := by
  refine ⟨rfl, fun texts => ⟨?_, dedup_words_nodup texts, mem_dedup_words texts,
    ?_⟩⟩
  · exact (dedup_words_sorted texts).lt_of_le (dedup_words_nodup texts)
  · intro w hw
    rcases (mem_dedup_words texts w).1 hw with ⟨t, _, hwp⟩
    exact pySplitAux_token_shape t [] (by simp) w hwp

/-- Witness for C4: the concrete token `cat` returned for the input
`["cat dog"]` is non-empty and contains no whitespace. -/
theorem C4_dedup_words_correct_witness :
    "cat".toList ≠ [] ∧ ∀ c ∈ "cat".toList, isWs c = false :=
  (C4_dedup_words_correct.2 ["cat dog".toList]).2.2.2 "cat".toList (by decide)

/-- C5: `dedup_words` is order-independent — permuting the input list of
frame texts yields the identical output word list. -/
theorem C5_dedup_words_perm_invariant (ts ts' : List (List Char))
    (h : ts.Perm ts') : dedup_words ts = dedup_words ts' := by
  apply List.eq_of_perm_of_sorted ?_ (dedup_words_sorted ts)
    (dedup_words_sorted ts')
  rw [List.perm_ext_iff_of_nodup (dedup_words_nodup ts) (dedup_words_nodup ts')]
  intro w
  rw [mem_dedup_words, mem_dedup_words]
  constructor
  · rintro ⟨t, ht, hw⟩
    exact ⟨t, h.mem_iff.1 ht, hw⟩
  · rintro ⟨t, ht, hw⟩
    exact ⟨t, h.mem_iff.2 ht, hw⟩

/-- Witness for C5: swapping the two frame texts of a concrete input
leaves the output unchanged. -/
theorem C5_dedup_words_perm_invariant_witness :
    dedup_words ["b a".toList, "c".toList] =
      dedup_words ["c".toList, "b a".toList] :=
  C5_dedup_words_perm_invariant _ _ (by decide)

/-! ### Frame listing order (claim C1) -/

theorem lex_append_left {p a b : List Char} (h : List.Lex (· < ·) a b) :
    List.Lex (· < ·) (p ++ a) (p ++ b) := by
  induction p with
  | nil => simpa using h
  | cons c cs ih => exact List.Lex.cons ih

theorem path_join_mono (folder : List Char) {a b : List Char} (h : a ≤ b) :
    path_join folder a ≤ path_join folder b := by
  rcases lt_or_eq_of_le h with hlt | heq
  · refine le_of_lt ?_
    show List.Lex (· < ·) (folder ++ '/' :: a) (folder ++ '/' :: b)
    exact lex_append_left (List.Lex.cons hlt)
  · subst heq
    exact le_rfl

/-- C1 counterexample: `get_frames` returns the `.jpg` entries in raw
directory-listing order; for the listing `["1.jpg", "0.jpg"]` the returned
path sequence is not lexically sorted. -/
theorem C1_get_frames_unsorted_counterexample :
    ¬ (get_frames "frames".toList
        ["1.jpg".toList, "0.jpg".toList]).Sorted (· ≤ ·) := by
  decide

/-- C1 amended: `get_frames` returns the frame paths in the order the
directory listing provides them, so the result is filename-sorted
whenever the directory listing itself is sorted (the code performs no
sorting of its own). -/
theorem C1_get_frames_sorted_of_listing_sorted (folder : List Char)
    (listing : List (List Char)) (h : listing.Sorted (· ≤ ·)) :
    (get_frames folder listing).Sorted (· ≤ ·) := by
  unfold get_frames
  exact List.Pairwise.map _ (fun a b hab => path_join_mono folder hab)
    (h.filter _)

/-- Witness for the amended C1: a concrete sorted listing yields sorted
frame paths. -/
theorem C1_get_frames_sorted_witness :
    (get_frames "frames".toList
      ["0.jpg".toList, "1.jpg".toList]).Sorted (· ≤ ·) :=
  C1_get_frames_sorted_of_listing_sorted _ _ (by decide)

/-! ### Empty-result handling and exit status (claim C2) -/

/-- An environment in which the decoder produced no frame files at all. -/
def envNoFrames : Env :=
  ⟨fun _ => true, fun _ => true, fun _ _ => none, []⟩

/-- An environment with one frame whose OCR always raises, so no text is
extracted from any frame. -/
def envNoText : Env :=
  ⟨fun _ => true, fun _ => true, fun _ _ => none, ["0.jpg".toList]⟩

/-- C2 counterexample: when zero frames are extracted, `process_video`
raises an error (it does not merely warn), and `main` turns that into
exit status 1, contradicting the claim that empty-result conditions never
change the exit status. -/
theorem C2_zero_frames_exit_counterexample :
    process_video envNoFrames ["eng".toList] "video.mp4".toList =
      VideoOutcome.raised "No frames were extracted from the video".toList ∧
    main_exit_code envNoFrames ["eng".toList] "video.mp4".toList = 1 := by
  decide

/-- C2 amended: the no-text and no-words empty results are warnings that
end processing of the video early and leave the exit status at 0; the
zero-frames condition, however, raises an error inside `process_video`
and `main` exits with status 1. -/
theorem C2_empty_result_exit_status (env : Env) (langs : List (List Char))
    (p : List Char) (hex : env.fileExists p = true)
    (hext : hasVideoExt p = true) :
    (process_video env langs p = VideoOutcome.warnedNoText ∨
      process_video env langs p = VideoOutcome.warnedNoWords →
        main_exit_code env langs p = 0) ∧
    (get_frames frames_folder env.listing = [] →
      process_video env langs p =
        VideoOutcome.raised "No frames were extracted from the video".toList ∧
      main_exit_code env langs p = 1) := by
  constructor
  · intro h
    simp only [main_exit_code, hex, hext]
    rcases h with h | h <;> rw [h] <;> simp
  · intro hnil
    have hp : process_video env langs p =
        VideoOutcome.raised "No frames were extracted from the video".toList := by
      simp only [process_video, hnil]
      simp
    refine ⟨hp, ?_⟩
    simp only [main_exit_code, hex, hext, hp]
    simp
/-- Witness for the amended C2: a concrete video whose single frame
yields no text ends with exit status 0, and a concrete video with no
extracted frames ends with exit status 1. -/
theorem C2_empty_result_exit_status_witness :
    main_exit_code envNoText ["eng".toList] "v.mp4".toList = 0 ∧
    main_exit_code envNoFrames ["eng".toList] "v.mp4".toList = 1 :=
  ⟨(C2_empty_result_exit_status envNoText ["eng".toList] "v.mp4".toList
      (by decide) (by decide)).1 (Or.inl (by decide)),
    ((C2_empty_result_exit_status envNoFrames ["eng".toList] "v.mp4".toList
      (by decide) (by decide)).2 (by decide)).2⟩

/-! ### Per-language join rule (claim C6) -/

/-- The spec's retention rule for one language: keep the OCR result when
the call did not fail and the result is non-empty after trimming
whitespace; a failed or trim-empty language is dropped. -/
def retainedResult (env : Env) (frame lang : List Char) :
    Option (List Char) :=
  match env.ocr frame lang with
  | none => none
  | some t => if hasNonWs t then some t else none

/-- The spec's join rule, stated in its own words: the retained
per-language results in language-list order, separated by single
newlines. -/
def specJoin (env : Env) (frame : List Char) (langs : List (List Char)) :
    List Char :=
  joinNl (langs.filterMap (retainedResult env frame))

theorem frame_text_list_eq_filterMap (env : Env) (frame : List Char)
    (langs : List (List Char)) :
    frame_text_list env frame langs =
      langs.filterMap (retainedResult env frame) := by
  induction langs with
  | nil => rfl
  | cons lang rest ih =>
    rw [frame_text_list, List.filterMap_cons]
    cases hocr : env.ocr frame lang with
    | none => simp [retainedResult, hocr, ih]
    | some t =>
      by_cases h : hasNonWs t = true <;> simp [retainedResult, hocr, h, ih]

/-- An environment realising the spec's example: for frame `f.jpg`,
language `A` raises and language `B` recognises `hello world`. -/
def envAB : Env :=
  ⟨fun _ => true, fun _ => true,
    fun _ lang => if lang = "B".toList then some "hello world".toList else none,
    ["f.jpg".toList]⟩

/-- C6: the text combined for a frame equals the spec's join rule — the
per-language results that are non-empty after trimming, in language-list
order, joined by single newlines, with failed or empty languages
contributing neither a segment nor a separator; a frame for which no
language is retained contributes nothing to the per-video collection;
and on the spec's example (`A` fails, `B` gives `hello world`) the frame
text is exactly `hello world`, with no leading newline. -/
theorem C6_language_join :
    (∀ (env : Env) (frame : List Char) (langs : List (List Char)),
      joinNl (frame_text_list env frame langs) = specJoin env frame langs) ∧
    (∀ (env : Env) (langs : List (List Char)) (frame : List Char)
      (rest : List (List Char)),
      env.fileExists frame = true → env.imreadOk frame = true →
      frame_text_list env frame langs = [] →
      extract_text env langs (frame :: rest) = extract_text env langs rest) ∧
    joinNl (frame_text_list envAB "f.jpg".toList ["A".toList, "B".toList]) =
      "hello world".toList := by
  refine ⟨?_, ?_, by decide⟩
  · intro env frame langs
    rw [specJoin, frame_text_list_eq_filterMap]
  · intro env langs frame rest hex hok hft
    rw [extract_text]
    simp [hex, hok, hft]

/-- Witness for C6: with a concrete frame for which every language raises,
the frame contributes nothing. -/
theorem C6_language_join_witness :
    extract_text envNoText ["eng".toList]
      ("0.jpg".toList :: ["1.jpg".toList]) =
      extract_text envNoText ["eng".toList] ["1.jpg".toList] :=
  C6_language_join.2.1 envNoText ["eng".toList] "0.jpg".toList
    ["1.jpg".toList] (by decide) (by decide) (by decide)

/-! ### Missing frame files during extraction (claim C8) -/

/-- An environment in which the frame file `frames/a.jpg` is missing,
`frames/b.jpg` exists, and OCR recognises `hi` everywhere. -/
def envMissingFrame : Env :=
  ⟨fun p => if p = "frames/a.jpg".toList then false else true,
    fun _ => true, fun _ _ => some "hi".toList,
    ["a.jpg".toList, "b.jpg".toList]⟩

/-- C8 counterexample: with the frame list containing the missing file
`frames/a.jpg`, extraction does not abort the video — the missing frame
is skipped, the remaining frame is still processed, and the video
completes successfully with its words saved. -/
theorem C8_missing_frame_counterexample :
    extract_text envMissingFrame ["eng".toList]
      ["frames/a.jpg".toList, "frames/b.jpg".toList] = ["hi".toList] ∧
    process_video envMissingFrame ["eng".toList] "v.mp4".toList =
      VideoOutcome.saved "v_words.txt".toList "hi".toList := by
  decide

/-- C8 amended: a missing frame file is caught by the per-frame handler —
that frame is logged and skipped, and extraction continues with the
remaining frames of the video (so neither the video nor a batch run is
aborted). -/
theorem C8_missing_frame_skipped (env : Env) (langs : List (List Char))
    (frame : List Char) (rest : List (List Char))
    (h : env.fileExists frame = false) :
    extract_text env langs (frame :: rest) = extract_text env langs rest := by
  rw [extract_text, if_pos h]

/-- Witness for the amended C8: skipping the concrete missing frame
`frames/a.jpg`. -/
theorem C8_missing_frame_skipped_witness :
    extract_text envMissingFrame ["eng".toList]
      ("frames/a.jpg".toList :: ["frames/b.jpg".toList]) =
      extract_text envMissingFrame ["eng".toList] ["frames/b.jpg".toList] :=
  C8_missing_frame_skipped envMissingFrame ["eng".toList]
    "frames/a.jpg".toList ["frames/b.jpg".toList] (by decide)

/-! ### Configuration validation order (claim C9) -/

/-- C9 counterexample: with only `eng` installed and `fra` requested,
`Config.__post_init__` does raise a configuration error, but the frames
and text directories have already been created when it does — the claim
that no directories are created before the error is false. -/
theorem C9_mkdirs_before_validation_counterexample :
    (config_post_init ["eng".toList] ["fra".toList] false "frames".toList
        "text".toList "debug".toList ⟨[]⟩).2.isSome = true ∧
    (config_post_init ["eng".toList] ["fra".toList] false "frames".toList
        "text".toList "debug".toList ⟨[]⟩).1.dirs =
      ["frames".toList, "text".toList] := by
  decide

/-- C9 amended: for every configuration whose language validation fails,
construction of the configuration raises the error — but only after the
frames and text directories have been created, so those I/O side effects
precede the configuration error. -/
theorem C9_config_error_after_mkdirs (installed : List (List Char))
    (languages : List (List Char)) (framesF textF debugF : List Char)
    (st : FsState) (msg : List Char)
    (h : validate_languages installed languages = some msg) :
    config_post_init installed languages false framesF textF debugF st =
      (⟨st.dirs ++ [framesF, textF]⟩, some msg) := by
  simp [config_post_init, makedirs, h]

/-- Witness for the amended C9: the concrete invalid configuration
(`fra` requested, only `eng` installed) fails after creating the two
folders. -/
theorem C9_config_error_after_mkdirs_witness :
    config_post_init ["eng".toList] ["fra".toList] false "frames".toList
        "text".toList "debug".toList ⟨[]⟩ =
      (⟨["frames".toList, "text".toList]⟩,
        some "Error validating languages: Missing language data files".toList) :=
  C9_config_error_after_mkdirs _ _ _ _ _ _ _ (by decide)

/-! ### When the output file is written (claim C10) -/

theorem process_video_eq (env : Env) (langs : List (List Char))
    (p : List Char) (h : get_frames frames_folder env.listing ≠ []) :
    process_video env langs p =
      if extract_text env langs (get_frames frames_folder env.listing) = []
      then VideoOutcome.warnedNoText
      else
        if dedup_words (extract_text env langs
            (get_frames frames_folder env.listing)) = []
        then VideoOutcome.warnedNoWords
        else
          VideoOutcome.saved (save_results_path (video_base_name p))
            (save_results_content (dedup_words (extract_text env langs
              (get_frames frames_folder env.listing)))) := by
  simp only [process_video, if_neg h]

/-- C10: when frames exist, `process_video` writes the output file — at
path `<video-base-name>_words.txt`, containing the newline-joined word
list — exactly when the deduplicated word list is non-empty; when no
frame text or no words remain it returns early without saving. -/
theorem C10_output_written_iff_words (env : Env) (langs : List (List Char))
    (p : List Char) (h : get_frames frames_folder env.listing ≠ []) :
    ((∃ path content, process_video env langs p =
        VideoOutcome.saved path content) ↔
      dedup_words (extract_text env langs
        (get_frames frames_folder env.listing)) ≠ []) ∧
    ∀ path content,
      process_video env langs p = VideoOutcome.saved path content →
      path = save_results_path (video_base_name p) ∧
      content = save_results_content (dedup_words (extract_text env langs
        (get_frames frames_folder env.listing))) := by
  have hd : dedup_words ([] : List (List Char)) = [] := rfl
  rw [process_video_eq env langs p h]
  by_cases ht :
      extract_text env langs (get_frames frames_folder env.listing) = []
  · rw [if_pos ht, ht]
    simp [hd]
  · rw [if_neg ht]
    by_cases hw : dedup_words (extract_text env langs
        (get_frames frames_folder env.listing)) = []
    · rw [if_pos hw]
      simp [hw]
    · rw [if_neg hw]
      simp [hw]

/-- Witness for C10: a concrete run with frames present saves its output
exactly because the word list is non-empty. -/
theorem C10_output_written_iff_words_witness :
    (∃ path content,
        process_video envMissingFrame ["eng".toList] "v.mp4".toList =
          VideoOutcome.saved path content) ↔
      dedup_words (extract_text envMissingFrame ["eng".toList]
        (get_frames frames_folder envMissingFrame.listing)) ≠ [] :=
  (C10_output_written_iff_words envMissingFrame ["eng".toList]
    "v.mp4".toList (by decide)).1

end VEE
